import Mathlib

/-!
Shallow embedding of `chimera_autoalign/controllers/autoalign.py` (class
`AutoAlign`), for checking the natural-language specification against the
code.

Modelling conventions:
* An astropy `Quantity` is a record carrying its raw numeric `value`
  together with its value converted to millimetres (`toMM`) and to degrees
  (`toDeg`); unit conversion calls in the source become field projections.
  Values are rationals.
* Hardware interactions (camera exposure, star extraction, the external
  `MkOptics.align` call) are oracles: per-iteration inputs supplied from
  outside, as the controller treats them as opaque collaborators.
* Each execution produces a trace of `Event`s (exposures, checks, focuser
  move commands) and either a normal result or an exception, so temporal
  claims become statements about traces.
-/

namespace AutoAlign

/-- An astropy-style quantity: raw value plus its unit conversions. -/
structure Quantity where
  value : ℚ
  toMM : ℚ
  toDeg : ℚ
deriving DecidableEq

/-- A focuser move command, as issued by `focuser.moveOut` / `focuser.moveIn`
with a step count and an axis name. -/
inductive FocMove where
  | moveOut (steps : ℚ) (axis : String)
  | moveIn (steps : ℚ) (axis : String)
deriving DecidableEq

/-- The axis name carried by a focuser move command. -/
def FocMove.axisName : FocMove → String
  | FocMove.moveOut _ a => a
  | FocMove.moveIn _ a => a

/-- Embedding of python's `str.upper()` on an axis name: character-wise
upper-casing. -/
def axisUpper (s : String) : String := ⟨s.data.map Char.toUpper⟩

/-- Embedding of `AutoAlign._applyHexapodOffset` (autoalign.py lines
260-279): linear axes X, Y, Z convert the offset to millimetres, rotation
axes U, V convert it to degrees, divide by the focuser `step` config, and
move out when the raw `value` is positive, in otherwise; any other axis
falls through both branches and issues nothing. -/
def applyHexapodOffset (step : ℚ) (axis : String) (offset : Quantity) :
    List FocMove :=
  if axisUpper axis ∈ ["X", "Y", "Z"] then
    if offset.value > 0 then
      [FocMove.moveOut (|offset.toMM| / step) (axisUpper axis)]
    else
      [FocMove.moveIn (|offset.toMM| / step) (axisUpper axis)]
  else if axisUpper axis ∈ ["U", "V"] then
    if offset.value > 0 then
      [FocMove.moveOut (|offset.toDeg| / step) (axisUpper axis)]
    else
      [FocMove.moveIn (|offset.toDeg| / step) (axisUpper axis)]
  else
    []

/-- Modelled from the spec: the `HexapodAxes` record returned by the
external `chimera_autoalign.util.mkoptics` module (not under src/); per the
controller's docstring it carries corrections for focus (Z), coma (X and Y)
and astigmatism (U and V). -/
structure HexapodAxes where
  x : Quantity
  y : Quantity
  z : Quantity
  u : Quantity
  v : Quantity
deriving DecidableEq

/-- The two aberrations corrected by the loop, in the order of the
`alignOrder` ordered dictionary (autoalign.py lines 125-126): coma
(spelled `comma` in the source) first, astigmatism second. -/
inductive Aberration where
  | comma
  | astigmatism
deriving DecidableEq

/-- Modelled from the spec: indexing `hexapod_offset[name]` for an
aberration name yields its per-axis offsets, X and Y for coma, U and V for
astigmatism (controller docstring; `HexapodAxes` itself lives in the
missing mkoptics module). -/
def aberrationOffsets (h : HexapodAxes) : Aberration → List (String × Quantity)
  | Aberration.comma => [("X", h.x), ("Y", h.y)]
  | Aberration.astigmatism => [("U", h.u), ("V", h.v)]

/-- The threshold test `np.abs(apply_offset[ab_key]) > alignOrder[name]`
(autoalign.py line 160): coma offsets compare against 0.009 mm, astigmatism
offsets against 10 arcsec (astropy converts units, so the comparison is in
millimetres resp. arcseconds, one arcsecond being 1/3600 degree). -/
def exceedsThreshold : Aberration → Quantity → Bool
  | Aberration.comma, q => decide ((9 : ℚ) / 1000 < |q.toMM|)
  | Aberration.astigmatism, q => decide ((10 : ℚ) < 3600 * |q.toDeg|)

/-- The inner `for ab_key in apply_offset` loop (autoalign.py lines
159-162): each offset above its threshold is applied and sets the
`applied` flag; the accumulator carries the commands issued so far and
the flag. -/
def applyAberration (step : ℚ) (ab : Aberration) :
    List (String × Quantity) → List FocMove × Bool → List FocMove × Bool
  | [], acc => acc
  | kv :: rest, acc =>
      if exceedsThreshold ab kv.2 then
        applyAberration step ab rest
          (acc.1 ++ applyHexapodOffset step kv.1 kv.2, true)
      else
        applyAberration step ab rest acc

/-- The outer `for current_aberration_name in alignOrder` loop with its
`if applied: break` (autoalign.py lines 153-165): coma is processed first;
if any coma correction was applied the loop breaks before astigmatism. -/
def applyCorrections (step : ℚ) (h : HexapodAxes) : List FocMove × Bool :=
  let c := applyAberration step Aberration.comma
    (aberrationOffsets h Aberration.comma) ([], false)
  if c.2 then c
  else
    applyAberration step Aberration.astigmatism
      (aberrationOffsets h Aberration.astigmatism) c

/-- A detected star's `X_IMAGE` / `Y_IMAGE` catalog columns. -/
structure Star where
  xImage : ℚ
  yImage : ℚ
deriving DecidableEq

/-- Element `k` of `np.linspace(0, size, 8)`: eight evenly spaced
boundaries from 0 to `size`, i.e. `size * k / 7`. -/
def gridPoint (size : ℚ) (k : Nat) : ℚ := size * k / 7

/-- Strict open-interval membership used by the star masks
(`> wgrid[i]` and `< wgrid[i+1]`). -/
def inBand (lo hi x : ℚ) : Bool := decide (lo < x) && decide (x < hi)

/-- Embedding of `star_per_grid[i][j]` (autoalign.py lines 199-208),
faithful to the source: the Y mask uses row index `i` (`hgrid[i]`,
`hgrid[i+1]`) even inside the `j` loop, so the cell index `j` is unused. -/
def starPerGrid (width heigth : ℚ) (cat : List Star) (i j : Nat) : Nat :=
  (cat.filter fun s =>
    inBand (gridPoint width i) (gridPoint width (i + 1)) s.xImage &&
    inBand (gridPoint heigth i) (gridPoint heigth (i + 1)) s.yImage).length

/-- Embedding of `AutoAlign.checkDistribution` (autoalign.py lines
184-215) as the condition under which it raises
`StarDistributionException`: some cell count is strictly below
`len(catalog)/2/8**2`. -/
def checkDistributionRaises (width heigth : ℚ) (cat : List Star) : Bool :=
  (List.range 7).any fun i => (List.range 7).any fun j =>
    decide ((starPerGrid width heigth cat i j : ℚ) < (cat.length : ℚ) / 2 / 64)

/-- Modelled from the spec: the per-cell star count the distribution check
describes, with cell `(i, j)` bounded by X boundaries `i, i+1` and Y
boundaries `j, j+1` (stars strictly inside both ranges). -/
def starPerGridSpec (width heigth : ℚ) (cat : List Star) (i j : Nat) : Nat :=
  (cat.filter fun s =>
    inBand (gridPoint width i) (gridPoint width (i + 1)) s.xImage &&
    inBand (gridPoint heigth j) (gridPoint heigth (j + 1)) s.yImage).length

/-- Modelled from the spec: the distribution check's raise condition as the
claim states it, over the full 7-by-7 grid of cells. -/
def checkDistributionSpecRaises (width heigth : ℚ) (cat : List Star) : Bool :=
  (List.range 7).any fun i => (List.range 7).any fun j =>
    decide ((starPerGridSpec width heigth cat i j : ℚ) <
      (cat.length : ℚ) / 2 / 64)

/-- An exposure frame, opaque to the controller apart from its identity. -/
structure Frame where
  id : Nat
deriving DecidableEq

/-- The exceptions the alignment run can raise. -/
inductive AlignError where
  | takeImageError
  | starNotFound (found : Nat) (required : Int)
  | starDistribution
deriving DecidableEq

/-- Embedding of `AutoAlign._takeImage` (autoalign.py lines 218-233):
`cam.expose` returns a (possibly empty) frame list; an empty (falsy)
result raises, otherwise the first frame is returned. -/
def takeImage (frames : List Frame) : Except AlignError Frame :=
  match frames with
  | [] => Except.error AlignError.takeImageError
  | f :: _ => Except.ok f

/-- Observable operations of one run, in program order. -/
inductive Event where
  | takeImage
  | findStars
  | starCountCheck
  | distributionCheck
  | computeOffsets
  | command (m : FocMove)
  | stepComplete
deriving DecidableEq

/-- The oracle results one loop iteration consumes: what `cam.expose`
returns, what `frame.extract` returns, and what `mkopt.align` returns. -/
structure IterInput where
  frames : List Frame
  catalog : List Star
  offsets : HexapodAxes

/-- The configuration a run of `align` closes over: the `minimum_star`,
`check_stellar_ditribution` and `niter` arguments, the camera pixel size
used by `checkDistribution`, and the focuser `step` config. -/
structure AlignConfig where
  minimum_star : Int
  check_stellar_ditribution : Bool
  niter : Nat
  width : ℚ
  heigth : ℚ
  step : ℚ

/-- One execution of the `while` loop body of `AutoAlign.align`
(autoalign.py lines 132-165) up to the `applied` flag test: take an image,
extract the catalog, the star-count check, the distribution check when
enabled, then the offsets and the correction commands. Returns the emitted
events and either an exception or the offsets together with the issued
commands and the `applied` flag. -/
def bodyRun (cfg : AlignConfig) (inp : IterInput) :
    List Event × Except AlignError (HexapodAxes × List FocMove × Bool) :=
  match takeImage inp.frames with
  | Except.error e => ([Event.takeImage], Except.error e)
  | Except.ok _ =>
    if (inp.catalog.length : Int) < cfg.minimum_star ∧ 0 < cfg.minimum_star then
      ([Event.takeImage, Event.findStars, Event.starCountCheck],
        Except.error
          (AlignError.starNotFound inp.catalog.length cfg.minimum_star))
    else if cfg.check_stellar_ditribution = true ∧
        checkDistributionRaises cfg.width cfg.heigth inp.catalog = true then
      ([Event.takeImage, Event.findStars, Event.starCountCheck,
        Event.distributionCheck],
        Except.error AlignError.starDistribution)
    else
      ([Event.takeImage, Event.findStars, Event.starCountCheck]
        ++ (if cfg.check_stellar_ditribution then [Event.distributionCheck]
            else [])
        ++ [Event.computeOffsets]
        ++ (applyCorrections cfg.step inp.offsets).1.map Event.command,
        Except.ok (inp.offsets, applyCorrections cfg.step inp.offsets))

/-- The trailing `self._applyHexapodOffset('Z', hexapod_offset.z)` call
(autoalign.py line 180), as command events. -/
def finalFocus (step : ℚ) (off : HexapodAxes) : List Event :=
  (applyHexapodOffset step "Z" off.z).map Event.command

/-- Embedding of the `while not done` loop of `AutoAlign.align`
(autoalign.py lines 132-182), fuel-indexed: each level runs the body once;
an exception propagates; `if not applied: break` and `if iter > niter:
break` exit to the final focus application; otherwise `stepComplete` fires
and the loop continues with `iter + 1`. `none` means the fuel ran out
before the loop exited. -/
def alignLoop (cfg : AlignConfig) (inputs : Nat → IterInput) (iter : Nat) :
    Nat → Option (List Event × Except AlignError HexapodAxes)
  | 0 => none
  | fuel + 1 =>
    match (bodyRun cfg (inputs iter)).2 with
    | Except.error e => some ((bodyRun cfg (inputs iter)).1, Except.error e)
    | Except.ok r =>
      if r.2.2 = false then
        some ((bodyRun cfg (inputs iter)).1 ++ finalFocus cfg.step r.1,
          Except.ok r.1)
      else if cfg.niter < iter then
        some ((bodyRun cfg (inputs iter)).1 ++ finalFocus cfg.step r.1,
          Except.ok r.1)
      else
        match alignLoop cfg inputs (iter + 1) fuel with
        | none => none
        | some rest =>
          some ((bodyRun cfg (inputs iter)).1 ++ [Event.stepComplete]
            ++ rest.1, rest.2)

/-- A full run of `AutoAlign.align`: the loop from `iter = 0`, with fuel
`niter + 2`, which `alignLoop_isSome` below shows always suffices. -/
def align (cfg : AlignConfig) (inputs : Nat → IterInput) :
    Option (List Event × Except AlignError HexapodAxes) :=
  alignLoop cfg inputs 0 (cfg.niter + 2)

/-- Number of exposures in a trace. -/
def countTakeImage (t : List Event) : Nat :=
  (t.filter fun e => decide (e = Event.takeImage)).length

/-! ## Concrete inputs used by witnesses and counterexamples -/

/-- A zero offset in every unit. -/
def qZero : Quantity := ⟨0, 0, 0⟩

/-- An offset of 1 (1 mm / 1 degree): above both correction thresholds. -/
def qBig : Quantity := ⟨1, 1, 1⟩

/-- Hexapod offsets that are all zero, as after a converged fit. -/
def hexZero : HexapodAxes := ⟨qZero, qZero, qZero, qZero, qZero⟩

/-- Hexapod offsets where coma X and astigmatism U both exceed their
thresholds. -/
def hexComaU : HexapodAxes := ⟨qBig, qZero, qZero, qBig, qZero⟩

/-- Hexapod offsets above threshold on every corrected axis. -/
def hexAllBig : HexapodAxes := ⟨qBig, qBig, qBig, qBig, qBig⟩

/-- A run configuration with no star-count or distribution gating and
`niter = 0`. -/
def cfgZeroIter : AlignConfig :=
  { minimum_star := 0, check_stellar_ditribution := false, niter := 0,
    width := 7, heigth := 7, step := 1 }

/-- Oracle inputs: one frame, empty catalog, all offsets zero. -/
def inputsConverged : Nat → IterInput := fun _ => ⟨[⟨0⟩], [], hexZero⟩

/-- A run configuration with a retry budget of one. -/
def cfgOneIter : AlignConfig :=
  { minimum_star := 0, check_stellar_ditribution := false, niter := 1,
    width := 7, heigth := 7, step := 1 }

/-- Oracle inputs whose offsets exceed the thresholds on every pass. -/
def inputsAlwaysBig : Nat → IterInput := fun _ => ⟨[⟨0⟩], [], hexAllBig⟩

/-- A run configuration with the distribution check enabled. -/
def cfgDistOn : AlignConfig :=
  { minimum_star := 0, check_stellar_ditribution := true, niter := 0,
    width := 7, heigth := 7, step := 1 }

/-- One-frame, empty-catalog, converged-offset iteration input. -/
def inpEmptyCat : IterInput := ⟨[⟨0⟩], [], hexZero⟩

/-- A run configuration requiring at least two stars. -/
def cfgMinTwo : AlignConfig :=
  { minimum_star := 2, check_stellar_ditribution := true, niter := 0,
    width := 7, heigth := 7, step := 1 }

/-- An iteration input with a single detected star. -/
def inpOneStar : IterInput := ⟨[⟨0⟩], [⟨1, 1⟩], hexZero⟩

/-- An iteration input whose exposure returned no frames. -/
def inpNoFrame : IterInput := ⟨[], [], hexZero⟩

/-- A catalog of 7 stars on the sensor diagonal (one per diagonal grid
cell, for a 7-by-7 pixel sensor), leaving every off-diagonal cell empty. -/
def catDiagonal : List Star :=
  [⟨1/2, 1/2⟩, ⟨3/2, 3/2⟩, ⟨5/2, 5/2⟩, ⟨7/2, 7/2⟩, ⟨9/2, 9/2⟩,
   ⟨11/2, 11/2⟩, ⟨13/2, 13/2⟩]

/-! ## General lemmas about the embedded operations -/

theorem checkDistributionRaises_nil (width heigth : ℚ) :
    checkDistributionRaises width heigth [] = false := by
  simp [checkDistributionRaises, starPerGrid]

theorem applyHexapodOffset_axisName (step : ℚ) (axis : String) (q : Quantity)
    (m : FocMove) (hm : m ∈ applyHexapodOffset step axis q) :
    m.axisName = axisUpper axis := by
  unfold applyHexapodOffset at hm
  split at hm
  · split at hm <;> simp only [List.mem_singleton] at hm <;> subst hm <;> rfl
  · split at hm
    · split at hm <;> simp only [List.mem_singleton] at hm <;> subst hm <;> rfl
    · simp at hm

theorem applyAberration_below (step : ℚ) (ab : Aberration)
    (offs : List (String × Quantity)) (acc : List FocMove × Bool)
    (h : ∀ p ∈ offs, exceedsThreshold ab p.2 = false) :
    applyAberration step ab offs acc = acc := by
  induction offs with
  | nil => rfl
  | cons kv rest ih =>
    rw [applyAberration, if_neg]
    · exact ih fun p hp => h p (List.mem_cons_of_mem kv hp)
    · rw [h kv (List.mem_cons_self kv rest)]
      simp

theorem applyAberration_snd (step : ℚ) (ab : Aberration)
    (offs : List (String × Quantity)) (acc : List FocMove × Bool) :
    (applyAberration step ab offs acc).2 =
      (acc.2 || offs.any fun p => exceedsThreshold ab p.2) := by
  induction offs generalizing acc with
  | nil => simp [applyAberration]
  | cons kv rest ih =>
    rw [applyAberration]
    by_cases h : exceedsThreshold ab kv.2 = true
    · rw [if_pos h, ih, List.any_cons, h]
      simp
    · rw [if_neg h, ih, List.any_cons, Bool.not_eq_true] at *
      rw [h]
      simp

theorem applyAberration_mem (step : ℚ) (ab : Aberration)
    (offs : List (String × Quantity)) (acc : List FocMove × Bool)
    (m : FocMove) (hm : m ∈ (applyAberration step ab offs acc).1) :
    m ∈ acc.1 ∨ ∃ a q, (a, q) ∈ offs ∧ exceedsThreshold ab q = true ∧
      m ∈ applyHexapodOffset step a q := by
  induction offs generalizing acc with
  | nil => exact Or.inl hm
  | cons kv rest ih =>
    rw [applyAberration] at hm
    by_cases h : exceedsThreshold ab kv.2 = true
    · rw [if_pos h] at hm
      rcases ih _ hm with hin | ⟨a, q, haq, hex, hmem⟩
      · rcases List.mem_append.mp hin with hin | hin
        · exact Or.inl hin
        · exact Or.inr ⟨kv.1, kv.2, by simp, h, hin⟩
      · exact Or.inr ⟨a, q, List.mem_cons_of_mem kv haq, hex, hmem⟩
    · rw [if_neg h] at hm
      rcases ih _ hm with hin | ⟨a, q, haq, hex, hmem⟩
      · exact Or.inl hin
      · exact Or.inr ⟨a, q, List.mem_cons_of_mem kv haq, hex, hmem⟩

theorem applyCorrections_mem (step : ℚ) (h : HexapodAxes) (m : FocMove)
    (hm : m ∈ (applyCorrections step h).1) :
    ∃ ab a q, (a, q) ∈ aberrationOffsets h ab ∧
      exceedsThreshold ab q = true ∧ m ∈ applyHexapodOffset step a q := by
  simp only [applyCorrections] at hm
  split at hm
  · rcases applyAberration_mem _ _ _ _ _ hm with hin | ⟨a, q, haq, hex, hmem⟩
    · simp at hin
    · exact ⟨Aberration.comma, a, q, haq, hex, hmem⟩
  · rcases applyAberration_mem _ _ _ _ _ hm with hin | ⟨a, q, haq, hex, hmem⟩
    · rcases applyAberration_mem _ _ _ _ _ hin with hin2 | ⟨a, q, haq, hex, hmem⟩
      · simp at hin2
      · exact ⟨Aberration.comma, a, q, haq, hex, hmem⟩
    · exact ⟨Aberration.astigmatism, a, q, haq, hex, hmem⟩

theorem applyCorrections_below (step : ℚ) (h : HexapodAxes)
    (hx : exceedsThreshold Aberration.comma h.x = false)
    (hy : exceedsThreshold Aberration.comma h.y = false)
    (hu : exceedsThreshold Aberration.astigmatism h.u = false)
    (hv : exceedsThreshold Aberration.astigmatism h.v = false) :
    applyCorrections step h = ([], false) := by
  have hc : applyAberration step Aberration.comma
      (aberrationOffsets h Aberration.comma) ([], false) = ([], false) := by
    apply applyAberration_below
    intro p hp
    simp only [aberrationOffsets, List.mem_cons, List.not_mem_nil,
      or_false] at hp
    rcases hp with hp | hp <;> subst hp
    · exact hx
    · exact hy
  have ha : applyAberration step Aberration.astigmatism
      (aberrationOffsets h Aberration.astigmatism) ([], false) = ([], false) := by
    apply applyAberration_below
    intro p hp
    simp only [aberrationOffsets, List.mem_cons, List.not_mem_nil,
      or_false] at hp
    rcases hp with hp | hp <;> subst hp
    · exact hu
    · exact hv
  simp [applyCorrections, hc, ha]

theorem countTakeImage_append (s t : List Event) :
    countTakeImage (s ++ t) = countTakeImage s + countTakeImage t := by
  simp [countTakeImage, List.filter_append]

theorem countTakeImage_map_command (l : List FocMove) :
    countTakeImage (l.map Event.command) = 0 := by
  induction l with
  | nil => rfl
  | cons m rest _ => simp [countTakeImage, List.filter_cons]

theorem countTakeImage_finalFocus (step : ℚ) (off : HexapodAxes) :
    countTakeImage (finalFocus step off) = 0 :=
  countTakeImage_map_command _

theorem countTakeImage_bodyRun (cfg : AlignConfig) (inp : IterInput) :
    countTakeImage (bodyRun cfg inp).1 = 1 := by
  rcases htk : takeImage inp.frames with e | f
  · simp [bodyRun, htk, countTakeImage]
  · simp only [bodyRun, htk]
    split_ifs <;>
      simp [countTakeImage_append, countTakeImage_map_command, countTakeImage]

/-! ## Unfolding lemmas for the loop -/

theorem alignLoop_error (cfg : AlignConfig) (inputs : Nat → IterInput)
    (iter fuel : Nat) (e : AlignError)
    (hb : (bodyRun cfg (inputs iter)).2 = Except.error e) :
    alignLoop cfg inputs iter (fuel + 1) =
      some ((bodyRun cfg (inputs iter)).1, Except.error e) := by
  simp only [alignLoop, hb]

theorem alignLoop_break (cfg : AlignConfig) (inputs : Nat → IterInput)
    (iter fuel : Nat) (r : HexapodAxes × List FocMove × Bool)
    (hb : (bodyRun cfg (inputs iter)).2 = Except.ok r)
    (hbr : r.2.2 = false ∨ cfg.niter < iter) :
    alignLoop cfg inputs iter (fuel + 1) =
      some ((bodyRun cfg (inputs iter)).1 ++ finalFocus cfg.step r.1,
        Except.ok r.1) := by
  simp only [alignLoop, hb]
  rcases hbr with hbr | hbr
  · rw [if_pos hbr]
  · by_cases h2 : r.2.2 = false
    · rw [if_pos h2]
    · rw [if_neg h2, if_pos hbr]

theorem alignLoop_continue_none (cfg : AlignConfig) (inputs : Nat → IterInput)
    (iter fuel : Nat) (r : HexapodAxes × List FocMove × Bool)
    (hb : (bodyRun cfg (inputs iter)).2 = Except.ok r)
    (h2 : r.2.2 = true) (h3 : ¬ cfg.niter < iter)
    (hrec : alignLoop cfg inputs (iter + 1) fuel = none) :
    alignLoop cfg inputs iter (fuel + 1) = none := by
  simp only [alignLoop, hb]
  rw [if_neg (by simp [h2]), if_neg h3, hrec]

theorem alignLoop_continue_some (cfg : AlignConfig) (inputs : Nat → IterInput)
    (iter fuel : Nat) (r : HexapodAxes × List FocMove × Bool)
    (rest : List Event × Except AlignError HexapodAxes)
    (hb : (bodyRun cfg (inputs iter)).2 = Except.ok r)
    (h2 : r.2.2 = true) (h3 : ¬ cfg.niter < iter)
    (hrec : alignLoop cfg inputs (iter + 1) fuel = some rest) :
    alignLoop cfg inputs iter (fuel + 1) =
      some ((bodyRun cfg (inputs iter)).1 ++ [Event.stepComplete]
        ++ rest.1, rest.2) := by
  simp only [alignLoop, hb]
  rw [if_neg (by simp [h2]), if_neg h3, hrec]

theorem alignLoop_mono (cfg : AlignConfig) (inputs : Nat → IterInput) :
    ∀ fuel iter res, alignLoop cfg inputs iter fuel = some res →
      alignLoop cfg inputs iter (fuel + 1) = some res := by
  intro fuel
  induction fuel with
  | zero => intro iter res h; simp [alignLoop] at h
  | succ f ih =>
    intro iter res h
    rcases hb : (bodyRun cfg (inputs iter)).2 with e | r
    · rw [alignLoop_error _ _ _ _ _ hb] at h ⊢
      exact h
    · by_cases hap : r.2.2 = false
      · rw [alignLoop_break _ _ _ _ _ hb (Or.inl hap)] at h ⊢
        exact h
      · by_cases h3 : cfg.niter < iter
        · rw [alignLoop_break _ _ _ _ _ hb (Or.inr h3)] at h ⊢
          exact h
        · have h2 : r.2.2 = true := by simpa using hap
          rcases hrec : alignLoop cfg inputs (iter + 1) f with _ | rest
          · rw [alignLoop_continue_none _ _ _ _ _ hb h2 h3 hrec] at h
            exact absurd h (by simp)
          · rw [alignLoop_continue_some _ _ _ _ _ _ hb h2 h3 hrec] at h
            rw [alignLoop_continue_some _ _ _ _ _ _ hb h2 h3 (ih _ _ hrec)]
            exact h

theorem alignLoop_mono_le (cfg : AlignConfig) (inputs : Nat → IterInput)
    (iter : Nat) (res : List Event × Except AlignError HexapodAxes)
    (fuel fuel' : Nat) (hle : fuel ≤ fuel')
    (hs : alignLoop cfg inputs iter fuel = some res) :
    alignLoop cfg inputs iter fuel' = some res := by
  obtain ⟨d, rfl⟩ := Nat.exists_eq_add_of_le hle
  induction d with
  | zero => exact hs
  | succ n ih =>
    exact alignLoop_mono cfg inputs (fuel + n) iter res
      (ih (Nat.le_add_right fuel n))

theorem alignLoop_isSome (cfg : AlignConfig) (inputs : Nat → IterInput) :
    ∀ fuel iter, 1 ≤ fuel → cfg.niter + 2 ≤ fuel + iter →
      (alignLoop cfg inputs iter fuel).isSome := by
  intro fuel
  induction fuel with
  | zero => intro iter h1 _; exact absurd h1 (by omega)
  | succ f ih =>
    intro iter _ h2
    rcases hb : (bodyRun cfg (inputs iter)).2 with e | r
    · rw [alignLoop_error _ _ _ _ _ hb]
      simp
    · by_cases hap : r.2.2 = false
      · rw [alignLoop_break _ _ _ _ _ hb (Or.inl hap)]
        simp
      · by_cases h3 : cfg.niter < iter
        · rw [alignLoop_break _ _ _ _ _ hb (Or.inr h3)]
          simp
        · have h2b : r.2.2 = true := by simpa using hap
          have h3b : iter ≤ cfg.niter := Nat.not_lt.mp h3
          have hrec := ih (iter + 1) (by omega) (by omega)
          rcases hs : alignLoop cfg inputs (iter + 1) f with _ | rest
          · rw [hs] at hrec
            simp at hrec
          · rw [alignLoop_continue_some _ _ _ _ _ _ hb h2b h3 hs]
            simp

theorem alignLoop_count (cfg : AlignConfig) (inputs : Nat → IterInput) :
    ∀ fuel iter t res, alignLoop cfg inputs iter fuel = some (t, res) →
      countTakeImage t ≤ fuel := by
  intro fuel
  induction fuel with
  | zero => intro iter t res h; simp [alignLoop] at h
  | succ f ih =>
    intro iter t res h
    rcases hb : (bodyRun cfg (inputs iter)).2 with e | r
    · rw [alignLoop_error _ _ _ _ _ hb] at h
      simp only [Option.some.injEq, Prod.mk.injEq] at h
      obtain ⟨rfl, rfl⟩ := h
      rw [countTakeImage_bodyRun]
      omega
    · by_cases hap : r.2.2 = false
      · rw [alignLoop_break _ _ _ _ _ hb (Or.inl hap)] at h
        simp only [Option.some.injEq, Prod.mk.injEq] at h
        obtain ⟨rfl, rfl⟩ := h
        rw [countTakeImage_append, countTakeImage_bodyRun,
          countTakeImage_finalFocus]
        omega
      · by_cases h3 : cfg.niter < iter
        · rw [alignLoop_break _ _ _ _ _ hb (Or.inr h3)] at h
          simp only [Option.some.injEq, Prod.mk.injEq] at h
          obtain ⟨rfl, rfl⟩ := h
          rw [countTakeImage_append, countTakeImage_bodyRun,
            countTakeImage_finalFocus]
          omega
        · have h2b : r.2.2 = true := by simpa using hap
          rcases hs : alignLoop cfg inputs (iter + 1) f with _ | rest
          · rw [alignLoop_continue_none _ _ _ _ _ hb h2b h3 hs] at h
            exact absurd h (by simp)
          · rw [alignLoop_continue_some _ _ _ _ _ _ hb h2b h3 hs] at h
            simp only [Option.some.injEq, Prod.mk.injEq] at h
            obtain ⟨rfl, rfl⟩ := h
            have hr := ih (iter + 1) rest.1 rest.2 hs
            rw [countTakeImage_append, countTakeImage_append,
              countTakeImage_bodyRun]
            have hstep : countTakeImage [Event.stepComplete] = 0 := by decide
            omega

theorem alignLoop_ok_suffix (cfg : AlignConfig) (inputs : Nat → IterInput) :
    ∀ fuel iter t off,
      alignLoop cfg inputs iter fuel = some (t, Except.ok off) →
      ∃ t0, t = t0 ++ finalFocus cfg.step off := by
  intro fuel
  induction fuel with
  | zero => intro iter t off h; simp [alignLoop] at h
  | succ f ih =>
    intro iter t off h
    rcases hb : (bodyRun cfg (inputs iter)).2 with e | r
    · rw [alignLoop_error _ _ _ _ _ hb] at h
      simp at h
    · by_cases hap : r.2.2 = false
      · rw [alignLoop_break _ _ _ _ _ hb (Or.inl hap)] at h
        simp only [Option.some.injEq, Prod.mk.injEq, Except.ok.injEq] at h
        obtain ⟨rfl, rfl⟩ := h
        exact ⟨(bodyRun cfg (inputs iter)).1, rfl⟩
      · by_cases h3 : cfg.niter < iter
        · rw [alignLoop_break _ _ _ _ _ hb (Or.inr h3)] at h
          simp only [Option.some.injEq, Prod.mk.injEq, Except.ok.injEq] at h
          obtain ⟨rfl, rfl⟩ := h
          exact ⟨(bodyRun cfg (inputs iter)).1, rfl⟩
        · have h2b : r.2.2 = true := by simpa using hap
          rcases hs : alignLoop cfg inputs (iter + 1) f with _ | rest
          · rw [alignLoop_continue_none _ _ _ _ _ hb h2b h3 hs] at h
            exact absurd h (by simp)
          · rw [alignLoop_continue_some _ _ _ _ _ _ hb h2b h3 hs] at h
            simp only [Option.some.injEq, Prod.mk.injEq] at h
            obtain ⟨rfl, hres⟩ := h
            obtain ⟨t0, ht0⟩ := ih (iter + 1) rest.1 off (by rw [hs, ← hres])
            exact ⟨(bodyRun cfg (inputs iter)).1 ++ [Event.stepComplete]
              ++ t0, by rw [ht0]; simp⟩

/-! ## Claim theorems -/

/-- C5: for every axis whose upper-case form is X, Y or Z and every offset,
`_applyHexapodOffset` commands the focuser to move |offset converted to
mm| / focuser step steps, outward when `offset.value > 0` and inward
otherwise (including an offset of exactly zero); for axes U and V the step
count is |offset converted to degrees| / focuser step with the same
direction rule. -/
theorem applyHexapodOffset_spec (step : ℚ) (axis : String)
    (offset : Quantity) :
    (axisUpper axis ∈ ["X", "Y", "Z"] →
      applyHexapodOffset step axis offset =
        if offset.value > 0 then
          [FocMove.moveOut (|offset.toMM| / step) (axisUpper axis)]
        else
          [FocMove.moveIn (|offset.toMM| / step) (axisUpper axis)])
    ∧ (axisUpper axis ∈ ["U", "V"] →
      applyHexapodOffset step axis offset =
        if offset.value > 0 then
          [FocMove.moveOut (|offset.toDeg| / step) (axisUpper axis)]
        else
          [FocMove.moveIn (|offset.toDeg| / step) (axisUpper axis)])
    ∧ (axisUpper axis ∈ ["X", "Y", "Z"] → offset.value = 0 →
      applyHexapodOffset step axis offset =
        [FocMove.moveIn (|offset.toMM| / step) (axisUpper axis)]) := by
  refine ⟨?_, ?_, ?_⟩
  · intro hmem
    unfold applyHexapodOffset
    rw [if_pos hmem]
  · intro hmem
    have hnot : axisUpper axis ∉ ["X", "Y", "Z"] := by
      simp only [List.mem_cons, List.not_mem_nil, or_false] at hmem ⊢
      rcases hmem with h | h <;> rw [h] <;> decide
    unfold applyHexapodOffset
    rw [if_neg hnot, if_pos hmem]
  · intro hmem hzero
    unfold applyHexapodOffset
    rw [if_pos hmem, if_neg (by rw [hzero]; exact lt_irrefl 0)]

/-- Witness for C5: evaluated on lower-case axes x, u, y with offsets 1
and 0 and step 2. -/
theorem applyHexapodOffset_spec_witness :
    (axisUpper "x" ∈ ["X", "Y", "Z"])
    ∧ (applyHexapodOffset 2 "x" qBig =
        if qBig.value > 0 then
          [FocMove.moveOut (|qBig.toMM| / 2) (axisUpper "x")]
        else
          [FocMove.moveIn (|qBig.toMM| / 2) (axisUpper "x")])
    ∧ (applyHexapodOffset 2 "u" qBig =
        if qBig.value > 0 then
          [FocMove.moveOut (|qBig.toDeg| / 2) (axisUpper "u")]
        else
          [FocMove.moveIn (|qBig.toDeg| / 2) (axisUpper "u")])
    ∧ (applyHexapodOffset 2 "y" qZero =
        [FocMove.moveIn (|qZero.toMM| / 2) (axisUpper "y")]) :=
  ⟨by decide, (applyHexapodOffset_spec 2 "x" qBig).1 (by decide),
    (applyHexapodOffset_spec 2 "u" qBig).2.1 (by decide),
    (applyHexapodOffset_spec 2 "y" qZero).2.2 (by decide) rfl⟩

/-- C9: for every axis string whose upper-case form is not one of X, Y,
Z, U, V, `_applyHexapodOffset` issues no focuser move command: the call
is a silent no-op. -/
theorem applyHexapodOffset_other_axis (step : ℚ) (axis : String)
    (offset : Quantity)
    (h1 : axisUpper axis ∉ ["X", "Y", "Z"])
    (h2 : axisUpper axis ∉ ["U", "V"]) :
    applyHexapodOffset step axis offset = [] := by
  unfold applyHexapodOffset
  rw [if_neg h1, if_neg h2]

/-- Witness for C9: axis "w" issues nothing. -/
theorem applyHexapodOffset_other_axis_witness :
    applyHexapodOffset 1 "w" qBig = [] :=
  applyHexapodOffset_other_axis 1 "w" qBig (by decide) (by decide)

/-- C10: `_takeImage` raises whenever the camera's expose call returns an
empty (falsy) result and otherwise returns exactly the first frame; on an
empty expose result the loop body stops at the exposure, so star detection
is never reached without a frame. -/
theorem takeImage_spec (cfg : AlignConfig) (inp : IterInput) :
    (takeImage [] = Except.error AlignError.takeImageError)
    ∧ (∀ (f : Frame) (fs : List Frame), takeImage (f :: fs) = Except.ok f)
    ∧ (inp.frames = [] →
        (bodyRun cfg inp).1 = [Event.takeImage]
        ∧ (bodyRun cfg inp).2 = Except.error AlignError.takeImageError
        ∧ Event.findStars ∉ (bodyRun cfg inp).1) := by
  refine ⟨rfl, fun f fs => rfl, fun hnil => ?_⟩
  simp [bodyRun, hnil, takeImage]

/-- Witness for C10: a run whose exposure returns no frame. -/
theorem takeImage_spec_witness :
    (bodyRun cfgMinTwo inpNoFrame).1 = [Event.takeImage]
    ∧ (bodyRun cfgMinTwo inpNoFrame).2 =
        Except.error AlignError.takeImageError
    ∧ Event.findStars ∉ (bodyRun cfgMinTwo inpNoFrame).1 :=
  (takeImage_spec cfgMinTwo inpNoFrame).2.2 rfl

/-- C6: the code deviates from the claimed full 7-by-7 cell check. On the
diagonal catalog `catDiagonal` (7-by-7 sensor) the source's
`checkDistribution` does not raise, although cell (0, 1) of the grid the
claim describes contains 0 stars, strictly below the
`len(catalog)/2/8**2` minimum, so the claimed check would raise. -/
theorem checkDistribution_code_bug :
    checkDistributionRaises 7 7 catDiagonal = false
    ∧ checkDistributionSpecRaises 7 7 catDiagonal = true
    ∧ starPerGridSpec 7 7 catDiagonal 0 1 = 0
    ∧ ((starPerGridSpec 7 7 catDiagonal 0 1 : ℚ) <
        (catDiagonal.length : ℚ) / 2 / 64) := by
  exact ⟨by with_unfolding_all decide, by with_unfolding_all decide,
    by with_unfolding_all decide, by with_unfolding_all decide⟩

/-- C1: in the first iteration in which no coma axis offset has absolute
value above 0.009 mm and no astigmatism axis offset above 10 arcsec (and
the body raises no exception), no correction is applied and the loop
breaks: the run proceeds only to the final focus application and returns
the offsets, and no further exposure is taken after this iteration's
one. -/
theorem align_converged_break (cfg : AlignConfig) (inputs : Nat → IterInput)
    (iter fuel : Nat)
    (hframes : (inputs iter).frames ≠ [])
    (hstar : ¬ (((inputs iter).catalog.length : Int) < cfg.minimum_star ∧
      0 < cfg.minimum_star))
    (hdist : ¬ (cfg.check_stellar_ditribution = true ∧
      checkDistributionRaises cfg.width cfg.heigth
        (inputs iter).catalog = true))
    (hx : exceedsThreshold Aberration.comma (inputs iter).offsets.x = false)
    (hy : exceedsThreshold Aberration.comma (inputs iter).offsets.y = false)
    (hu : exceedsThreshold Aberration.astigmatism
      (inputs iter).offsets.u = false)
    (hv : exceedsThreshold Aberration.astigmatism
      (inputs iter).offsets.v = false) :
    alignLoop cfg inputs iter (fuel + 1) =
      some ((bodyRun cfg (inputs iter)).1
        ++ finalFocus cfg.step (inputs iter).offsets,
        Except.ok (inputs iter).offsets)
    ∧ countTakeImage ((bodyRun cfg (inputs iter)).1
        ++ finalFocus cfg.step (inputs iter).offsets) = 1 := by
  have hcorr := applyCorrections_below cfg.step (inputs iter).offsets
    hx hy hu hv
  have hb2 : (bodyRun cfg (inputs iter)).2 =
      Except.ok ((inputs iter).offsets, (([] : List FocMove), false)) := by
    rcases hf : (inputs iter).frames with _ | ⟨f, fs⟩
    · exact absurd hf hframes
    · simp only [bodyRun, hf, takeImage]
      rw [if_neg hstar, if_neg hdist, hcorr]
  constructor
  · exact alignLoop_break cfg inputs iter fuel _ hb2 (Or.inl rfl)
  · rw [countTakeImage_append, countTakeImage_bodyRun,
      countTakeImage_finalFocus]

/-- Witness for C1: a run whose fitted offsets are all zero breaks in its
first iteration. -/
theorem align_converged_break_witness :
    alignLoop cfgZeroIter inputsConverged 0 (1 + 1) =
      some ((bodyRun cfgZeroIter (inputsConverged 0)).1
        ++ finalFocus cfgZeroIter.step (inputsConverged 0).offsets,
        Except.ok (inputsConverged 0).offsets)
    ∧ countTakeImage ((bodyRun cfgZeroIter (inputsConverged 0)).1
        ++ finalFocus cfgZeroIter.step (inputsConverged 0).offsets) = 1 :=
  align_converged_break cfgZeroIter inputsConverged 0 1 (by decide)
    (by decide) (by with_unfolding_all decide)
    (by with_unfolding_all decide) (by with_unfolding_all decide)
    (by with_unfolding_all decide) (by with_unfolding_all decide)

/-- C2: aberrations are corrected coma before astigmatism, and whenever at
least one coma axis offset exceeds its 0.009 mm threshold, only coma
corrections (axes X and Y) are applied in that iteration and astigmatism
offsets are not applied. -/
theorem applyCorrections_coma_first (step : ℚ) (h : HexapodAxes)
    (hcoma : exceedsThreshold Aberration.comma h.x = true ∨
      exceedsThreshold Aberration.comma h.y = true) :
    (applyCorrections step h).2 = true
    ∧ (applyCorrections step h).1 =
        (applyAberration step Aberration.comma
          (aberrationOffsets h Aberration.comma) ([], false)).1
    ∧ ∀ m ∈ (applyCorrections step h).1,
        m.axisName = "X" ∨ m.axisName = "Y" := by
  have hflag : (applyAberration step Aberration.comma
      (aberrationOffsets h Aberration.comma) ([], false)).2 = true := by
    rw [applyAberration_snd]
    rcases hcoma with hc | hc <;> simp [aberrationOffsets, hc]
  have hcor : applyCorrections step h =
      applyAberration step Aberration.comma
        (aberrationOffsets h Aberration.comma) ([], false) := by
    simp only [applyCorrections]
    rw [if_pos hflag]
  refine ⟨by rw [hcor]; exact hflag, by rw [hcor], ?_⟩
  intro m hm
  rw [hcor] at hm
  rcases applyAberration_mem _ _ _ _ _ hm with hin | ⟨a, q, haq, _, hmem⟩
  · simp at hin
  · have haxis := applyHexapodOffset_axisName step a q m hmem
    simp only [aberrationOffsets, List.mem_cons, List.not_mem_nil,
      or_false] at haq
    rcases haq with haq | haq <;> injection haq with ha _ <;> subst ha
    · left
      rw [haxis]
      decide
    · right
      rw [haxis]
      decide

/-- Witness for C2: coma X and astigmatism U both exceed their thresholds;
only the coma correction is applied. -/
theorem applyCorrections_coma_first_witness :
    (applyCorrections 1 hexComaU).2 = true
    ∧ (applyCorrections 1 hexComaU).1 =
        (applyAberration 1 Aberration.comma
          (aberrationOffsets hexComaU Aberration.comma) ([], false)).1
    ∧ ∀ m ∈ (applyCorrections 1 hexComaU).1,
        m.axisName = "X" ∨ m.axisName = "Y" :=
  applyCorrections_coma_first 1 hexComaU
    (Or.inl (by with_unfolding_all decide))

/-- C3: the alignment loop always terminates after exhausting its retry
budget: with any fuel at least `niter + 2` the loop completes, the result
does not depend on the fuel, and the body (counted by its exposures)
executes at most `niter + 2` times — whatever offsets the external
alignment module returns. -/
theorem align_budget_bound (cfg : AlignConfig) (inputs : Nat → IterInput)
    (fuel : Nat) (hfuel : cfg.niter + 2 ≤ fuel) :
    ∃ t res, align cfg inputs = some (t, res)
      ∧ alignLoop cfg inputs 0 fuel = some (t, res)
      ∧ countTakeImage t ≤ cfg.niter + 2 := by
  have hsome := alignLoop_isSome cfg inputs (cfg.niter + 2) 0 (by omega)
    (by omega)
  rcases ho : alignLoop cfg inputs 0 (cfg.niter + 2) with _ | r
  · rw [ho] at hsome
    simp at hsome
  · refine ⟨r.1, r.2, ho, ?_, ?_⟩
    · exact alignLoop_mono_le cfg inputs 0 (r.1, r.2) (cfg.niter + 2)
        fuel hfuel (by rw [ho])
    · exact alignLoop_count cfg inputs (cfg.niter + 2) 0 r.1 r.2
        (by rw [ho])

/-- Witness for C3: a budget of one with corrections above threshold on
every pass. -/
theorem align_budget_bound_witness :
    ∃ t res, align cfgOneIter inputsAlwaysBig = some (t, res)
      ∧ alignLoop cfgOneIter inputsAlwaysBig 0 5 = some (t, res)
      ∧ countTakeImage t ≤ cfgOneIter.niter + 2 :=
  align_budget_bound cfgOneIter inputsAlwaysBig 5 (by decide)

/-- C4 as stated is false on the code: with every fitted offset zero the
loop applies no correction and breaks, yet `align` still issues a focuser
command (moveIn 0 on Z) for the zero focus offset, which is at-or-below
both configured thresholds. -/
theorem align_unconditional_focus_counterexample :
    align cfgZeroIter inputsConverged =
      some ([Event.takeImage, Event.findStars, Event.starCountCheck,
        Event.computeOffsets, Event.command (FocMove.moveIn 0 "Z")],
        Except.ok hexZero)
    ∧ ¬ ((9 : ℚ) / 1000 < |hexZero.z.toMM|)
    ∧ ¬ ((10 : ℚ) < 3600 * |hexZero.z.toDeg|) := by
  exact ⟨by with_unfolding_all rfl, by with_unfolding_all decide,
    by with_unfolding_all decide⟩

/-- C4 amended: every correction command issued inside the loop's
iterations corresponds to an aberration offset above that aberration's
threshold, but the final focus (Z) command is issued unconditionally
whenever the loop exits normally, regardless of the Z offset's
magnitude. -/
theorem align_threshold_commands_amended (cfg : AlignConfig)
    (inputs : Nat → IterInput) (fuel iter : Nat) :
    (∀ (step : ℚ) (h : HexapodAxes) (m : FocMove),
      m ∈ (applyCorrections step h).1 →
      ∃ ab a q, (a, q) ∈ aberrationOffsets h ab ∧
        exceedsThreshold ab q = true ∧ m ∈ applyHexapodOffset step a q)
    ∧ (∀ t off, alignLoop cfg inputs iter fuel = some (t, Except.ok off) →
        ∃ t0, t = t0 ++ finalFocus cfg.step off) :=
  ⟨fun step h m hm => applyCorrections_mem step h m hm,
    fun t off hsome => alignLoop_ok_suffix cfg inputs fuel iter t off hsome⟩

/-- Witness for C4 amended: the single command on `hexComaU` comes from the
above-threshold coma X offset, and the converged run's trace ends in the
unconditional focus command. -/
theorem align_threshold_commands_amended_witness :
    (∃ ab a q, (a, q) ∈ aberrationOffsets hexComaU ab ∧
      exceedsThreshold ab q = true ∧
      FocMove.moveOut 1 "X" ∈ applyHexapodOffset 1 a q)
    ∧ (∃ t0, [Event.takeImage, Event.findStars, Event.starCountCheck,
        Event.computeOffsets, Event.command (FocMove.moveIn 0 "Z")] =
          t0 ++ finalFocus cfgZeroIter.step hexZero) :=
  ⟨(align_threshold_commands_amended cfgZeroIter inputsConverged 2 0).1 1
      hexComaU (FocMove.moveOut 1 "X") (by with_unfolding_all decide),
    (align_threshold_commands_amended cfgZeroIter inputsConverged 2 0).2
      [Event.takeImage, Event.findStars, Event.starCountCheck,
        Event.computeOffsets, Event.command (FocMove.moveIn 0 "Z")]
      hexZero (by with_unfolding_all rfl)⟩

/-- C7: the loop body performs, in order, the exposure, the star
extraction, the star-count check, the distribution check when
`check_stellar_ditribution` is set, and only then the offset computation;
when the distribution check raises, no offsets are computed, and when the
flag is unset the distribution check never occurs. -/
theorem bodyRun_order (cfg : AlignConfig) (inp : IterInput)
    (hframes : inp.frames ≠ [])
    (hstar : ¬ ((inp.catalog.length : Int) < cfg.minimum_star ∧
      0 < cfg.minimum_star)) :
    (¬ (cfg.check_stellar_ditribution = true ∧
        checkDistributionRaises cfg.width cfg.heigth inp.catalog = true) →
      (bodyRun cfg inp).1 =
        [Event.takeImage, Event.findStars, Event.starCountCheck]
        ++ (if cfg.check_stellar_ditribution then [Event.distributionCheck]
            else [])
        ++ [Event.computeOffsets]
        ++ (applyCorrections cfg.step inp.offsets).1.map Event.command)
    ∧ (cfg.check_stellar_ditribution = true →
        checkDistributionRaises cfg.width cfg.heigth inp.catalog = true →
        (bodyRun cfg inp).1 =
          [Event.takeImage, Event.findStars, Event.starCountCheck,
            Event.distributionCheck]
        ∧ Event.computeOffsets ∉ (bodyRun cfg inp).1)
    ∧ (cfg.check_stellar_ditribution = false →
        Event.distributionCheck ∉ (bodyRun cfg inp).1) := by
  rcases hf : inp.frames with _ | ⟨f, fs⟩
  · exact absurd hf hframes
  refine ⟨?_, ?_, ?_⟩
  · intro hnd
    simp only [bodyRun, hf, takeImage]
    rw [if_neg hstar, if_neg hnd]
  · intro hflag hraise
    have hcond : cfg.check_stellar_ditribution = true ∧
        checkDistributionRaises cfg.width cfg.heigth inp.catalog = true :=
      ⟨hflag, hraise⟩
    simp only [bodyRun, hf, takeImage]
    rw [if_neg hstar, if_pos hcond]
    exact ⟨rfl, by decide⟩
  · intro hflag
    have hnd : ¬ (cfg.check_stellar_ditribution = true ∧
        checkDistributionRaises cfg.width cfg.heigth inp.catalog = true) := by
      rw [hflag]
      simp
    simp only [bodyRun, hf, takeImage]
    rw [if_neg hstar, if_neg hnd, hflag]
    simp

/-- Witness for C7: with the distribution flag set and an empty catalog
(which passes the check) the body's trace is the full ordered sequence. -/
theorem bodyRun_order_witness :
    (bodyRun cfgDistOn inpEmptyCat).1 =
      [Event.takeImage, Event.findStars, Event.starCountCheck]
      ++ (if cfgDistOn.check_stellar_ditribution then
          [Event.distributionCheck] else [])
      ++ [Event.computeOffsets]
      ++ (applyCorrections cfgDistOn.step inpEmptyCat.offsets).1.map
          Event.command :=
  (bodyRun_order cfgDistOn inpEmptyCat (by decide) (by decide)).1
    (by with_unfolding_all decide)

/-- C8: the loop body raises `StarNotFoundException` exactly when the
catalog has fewer than `minimum_star` entries and `minimum_star > 0`; when
it raises, no offsets are computed and no focuser command is issued in
that iteration; and when `minimum_star <= 0` the run proceeds to the
offset computation even with an empty catalog. -/
theorem bodyRun_star_check (cfg : AlignConfig) (inp : IterInput)
    (hframes : inp.frames ≠ []) :
    ((∃ found req, (bodyRun cfg inp).2 =
        Except.error (AlignError.starNotFound found req)) ↔
      ((inp.catalog.length : Int) < cfg.minimum_star ∧
        0 < cfg.minimum_star))
    ∧ (((inp.catalog.length : Int) < cfg.minimum_star ∧
        0 < cfg.minimum_star) →
        Event.computeOffsets ∉ (bodyRun cfg inp).1
        ∧ ∀ m, Event.command m ∉ (bodyRun cfg inp).1)
    ∧ (cfg.minimum_star ≤ 0 → inp.catalog = [] →
        Event.computeOffsets ∈ (bodyRun cfg inp).1) := by
  rcases hf : inp.frames with _ | ⟨f, fs⟩
  · exact absurd hf hframes
  refine ⟨⟨?_, ?_⟩, ?_, ?_⟩
  · rintro ⟨found, req, heq⟩
    by_cases hcond : (inp.catalog.length : Int) < cfg.minimum_star ∧
        0 < cfg.minimum_star
    · exact hcond
    · exfalso
      simp only [bodyRun, hf, takeImage] at heq
      rw [if_neg hcond] at heq
      by_cases hdc : cfg.check_stellar_ditribution = true ∧
          checkDistributionRaises cfg.width cfg.heigth inp.catalog = true
      · rw [if_pos hdc] at heq
        simp at heq
      · rw [if_neg hdc] at heq
        simp at heq
  · intro hcond
    simp only [bodyRun, hf, takeImage]
    rw [if_pos hcond]
    exact ⟨_, _, rfl⟩
  · intro hcond
    simp only [bodyRun, hf, takeImage]
    rw [if_pos hcond]
    exact ⟨by simp, fun m => by simp⟩
  · intro hmin hcat
    have hcond : ¬ ((inp.catalog.length : Int) < cfg.minimum_star ∧
        0 < cfg.minimum_star) := fun hc => absurd hc.2 (by omega)
    have hnd : ¬ (cfg.check_stellar_ditribution = true ∧
        checkDistributionRaises cfg.width cfg.heigth inp.catalog = true) := by
      rw [hcat, checkDistributionRaises_nil]
      simp
    simp only [bodyRun, hf, takeImage]
    rw [if_neg hcond, if_neg hnd]
    simp

/-- Witness for C8: one detected star against a minimum of two. -/
theorem bodyRun_star_check_witness :
    ((∃ found req, (bodyRun cfgMinTwo inpOneStar).2 =
        Except.error (AlignError.starNotFound found req)) ↔
      ((inpOneStar.catalog.length : Int) < cfgMinTwo.minimum_star ∧
        0 < cfgMinTwo.minimum_star))
    ∧ (((inpOneStar.catalog.length : Int) < cfgMinTwo.minimum_star ∧
        0 < cfgMinTwo.minimum_star) →
        Event.computeOffsets ∉ (bodyRun cfgMinTwo inpOneStar).1
        ∧ ∀ m, Event.command m ∉ (bodyRun cfgMinTwo inpOneStar).1)
    ∧ (cfgMinTwo.minimum_star ≤ 0 → inpOneStar.catalog = [] →
        Event.computeOffsets ∈ (bodyRun cfgMinTwo inpOneStar).1) :=
  bodyRun_star_check cfgMinTwo inpOneStar (by decide)

end AutoAlign
